import Mathlib

/-!
Verification of the conversation-history and rate-limiting layer in
`src/chatbot/database.py`.

Modelling conventions of the shallow embedding:
* Timestamps (`created_at`, `datetime.now()`) are integers (seconds);
  `timedelta(minutes=m)` is `m * 60`.
* The relational store is a `Store` record holding the `user` and
  `question_answer` tables as lists in insertion order; autoincremented
  primary keys come from an explicit counter.
* ORM query ordering (`order_by(created_at.asc())`, the relationship's
  `order_by="desc(QuestionAnswer.created_at)"`) is modelled by an insertion
  sort on `created_at` (descending order as the reverse of the ascending one).
* A Python fault (such as reading an unbound local variable) is an
  `Except` error; a function that cannot fault keeps a plain return type.
* Python list slicing `l[s:]` is `pySliceFrom`, including its behaviour on
  zero and negative `s`.
-/

/-- Row of the `user` table (`User` model, database.py:28-54). -/
structure User where
  id : Nat
  max_id : Option Int
  is_subscribed : Bool
  deriving Repr, DecidableEq

/-- Row of the `question_answer` table (`QuestionAnswer` model, database.py:57-86). -/
structure QuestionAnswer where
  id : Nat
  question : String
  answer : Option String
  confluence_url : Option String
  score : Option Int
  user_id : Nat
  created_at : Int
  stop_point : Bool
  deriving Repr, DecidableEq

/-- The relational store: both tables in insertion order plus the
autoincrement counters. -/
structure Store where
  users : List User
  qas : List QuestionAnswer
  next_user_id : Nat
  deriving Repr, DecidableEq

/-- Comparison key used by every `order_by` on `QuestionAnswer.created_at`. -/
def qaLE (a b : QuestionAnswer) : Prop :=
  a.created_at ≤ b.created_at

instance : DecidableRel qaLE :=
  fun a b => inferInstanceAs (Decidable (a.created_at ≤ b.created_at))

instance : IsTotal QuestionAnswer qaLE :=
  ⟨fun a b => le_total a.created_at b.created_at⟩

instance : IsTrans QuestionAnswer qaLE :=
  ⟨fun _ _ _ hab hbc => le_trans hab hbc⟩

/-- Model of `order_by(QuestionAnswer.created_at.asc())`. -/
def sortByCreatedAtAsc (l : List QuestionAnswer) : List QuestionAnswer :=
  List.insertionSort qaLE l

/-- All turns of the user with primary key `uid` (the rows of
`question_answer` with `user_id == uid`). -/
def userTurns (s : Store) (uid : Nat) : List QuestionAnswer :=
  s.qas.filter (fun qa => decide (qa.user_id = uid))

/-- The relationship `User.question_answers`, ordered by
`desc(QuestionAnswer.created_at)` (database.py:47-51). -/
def question_answers_desc (s : Store) (uid : Nat) : List QuestionAnswer :=
  (sortByCreatedAtAsc (userTurns s uid)).reverse

/-- Model of `select(User).where(User.id == user_id)` and
`session.query(User).get(user_id)`. -/
def findUserById (s : Store) (user_id : Nat) : Option User :=
  s.users.find? (fun u => decide (u.id = user_id))

/-- Model of `select(User).where(User.max_id == max_id)`. -/
def findUserByMaxId (s : Store) (m : Int) : Option User :=
  s.users.find? (fun u => decide (u.max_id = some m))

/-- A runtime fault raised by the Python code itself. -/
inductive PyFault where
  | unboundLocalError
  deriving Repr, DecidableEq

/-- Embedding of `add_user` (database.py:89-116).  The local variable `user` is only
assigned when `max_id is not None` (line 104-105); reading it on line 107
when it was never assigned raises `UnboundLocalError`, modelled as the
`Except.error`. -/
def add_user (s : Store) (max_id : Option Int) :
    Except PyFault (Bool × Nat × Store) :=
  let userVar : Option (Option User) :=
    match max_id with
    | some m => some (findUserByMaxId s m)
    | none => none
  match userVar with
  | none => Except.error PyFault.unboundLocalError
  | some none =>
      let u : User := { id := s.next_user_id, max_id := max_id, is_subscribed := true }
      Except.ok (true, u.id,
        { s with users := s.users ++ [u], next_user_id := s.next_user_id + 1 })
  | some (some u) => Except.ok (false, u.id, s)

/-- Embedding of `get_user_id` (database.py:119-134); same unbound-local pattern as
`add_user` when `max_id` is `None`. -/
def get_user_id (s : Store) (max_id : Option Int) :
    Except PyFault (Option Nat) :=
  match max_id with
  | some m => Except.ok ((findUserByMaxId s m).map (fun u => u.id))
  | none => Except.error PyFault.unboundLocalError

/-- Embedding of `subscribe_user` (database.py:137-154): returns `False` when the user
is not found, otherwise flips `is_subscribed`, commits, and returns the
new value.  The updated row replaces the old one in the store. -/
def subscribe_user (s : Store) (user_id : Nat) : Bool × Store :=
  match findUserById s user_id with
  | none => (false, s)
  | some u =>
      let u' : User := { u with is_subscribed := !u.is_subscribed }
      (u'.is_subscribed,
        { s with users := s.users.map (fun v => if v.id = u.id then u' else v) })

/-- Embedding of `check_spam` (database.py:157-176): false for an unknown user; for a
known user, true exactly when it has more than five turns and the fifth
entry of the descending-ordered relationship (`question_answers[4]`) was
created after `now - 1 minute`. -/
def check_spam (s : Store) (user_id : Nat) (now : Int) : Bool :=
  match findUserById s user_id with
  | none => false
  | some u =>
      let qas := question_answers_desc s u.id
      if 5 < qas.length then
        match (qas.drop 4).head? with
        | some fifth => decide (now - 60 < fifth.created_at)
        | none => false
      else
        false

/-- Embedding of `add_question_answer` (database.py:179-208).  `assigned_id` models the
id visible on the ORM object after `flush`/`refresh` (`None` when the
store failed to assign one); line 206-208 turns that `None` into a
returned `0`. -/
def add_question_answer (s : Store) (question answer : String)
    (confluence_url : Option String) (user_id : Nat) (now : Int)
    (assigned_id : Option Nat) : Nat × Store :=
  let qa : QuestionAnswer :=
    { id := assigned_id.getD 0
      question := question
      answer := some answer
      confluence_url := confluence_url
      score := none
      user_id := user_id
      created_at := now
      stop_point := false }
  let s' : Store := { s with qas := s.qas ++ [qa] }
  match assigned_id with
  | none => (0, s')
  | some i => (i, s')

/-- Embedding of `rate_answer` (database.py:211-231). -/
def rate_answer (s : Store) (question_answer_id : Nat) (score : Int) :
    Bool × Store :=
  match s.qas.find? (fun qa => decide (qa.id = question_answer_id)) with
  | none => (false, s)
  | some qa =>
      (true,
        { s with qas := s.qas.map (fun r =>
            if r.id = qa.id then { qa with score := some score } else r) })

/-- The local `recent_qa` in `get_history_of_chat` (database.py:256-264): the user's
turns with `created_at >= now - timedelta(minutes=time)`, ascending by
`created_at`. -/
def ghoc_recent (s : Store) (u : User) (time : Int) (now : Int) :
    List QuestionAnswer :=
  sortByCreatedAtAsc
    ((userTurns s u.id).filter (fun qa => decide (now - time * 60 ≤ qa.created_at)))

/-- The local `full_pairs` before the cap (database.py:266): the in-window turns with
`answer != ""`. -/
def ghoc_full_pairs (s : Store) (u : User) (time : Int) (now : Int) :
    List QuestionAnswer :=
  (ghoc_recent s u time now).filter (fun qa => decide (qa.answer ≠ some ""))

/-- The local `unanswered` (database.py:270): the in-window turns with `answer == ""`. -/
def ghoc_unanswered (s : Store) (u : User) (time : Int) (now : Int) :
    List QuestionAnswer :=
  (ghoc_recent s u time now).filter (fun qa => decide (qa.answer = some ""))

/-- Python list slicing `l[s:]` for an arbitrary integer `s`: a
non-negative start drops `s` elements; a negative start keeps the last
`-s` elements (all of them when `-s` exceeds the length). -/
def pySliceFrom (start : Int) (l : List QuestionAnswer) : List QuestionAnswer :=
  if 0 ≤ start then l.drop start.toNat
  else l.drop (l.length - (-start).toNat)

/-- Embedding of `get_history_of_chat` (database.py:234-273): `[]` for an unknown user;
otherwise `full_pairs` capped by `full_pairs[-limit_pairs:]` whenever
`len(full_pairs) > limit_pairs`, concatenated with all unanswered turns. -/
def get_history_of_chat (s : Store) (user_id : Nat) (time : Int)
    (limit_pairs : Int) (now : Int) : List QuestionAnswer :=
  match findUserById s user_id with
  | none => []
  | some u =>
      let full_pairs := ghoc_full_pairs s u time now
      let full_pairs :=
        if limit_pairs < (full_pairs.length : Int) then
          pySliceFrom (-limit_pairs) full_pairs
        else full_pairs
      full_pairs ++ ghoc_unanswered s u time now

/-- The list comprehension
`[i for i, qa in enumerate(history) if qa.stop_point]` (database.py:293),
with `i` the running index starting at `k`. -/
def stopIndicesFrom (k : Nat) : List QuestionAnswer → List Nat
  | [] => []
  | qa :: rest =>
      (if qa.stop_point then [k] else []) ++ stopIndicesFrom (k + 1) rest

/-- The local `last_stop_idx` (database.py:294): the last stop index, `-1` when
there is none. -/
def fch_last_stop_idx (h : List QuestionAnswer) : Int :=
  match (stopIndicesFrom 0 h).getLast? with
  | some i => (i : Int)
  | none => -1

/-- The local `trimmed_history` (database.py:296): `history[last_stop_idx + 1:]`
when a stop index exists, the whole history otherwise. -/
def fch_trimmed (h : List QuestionAnswer) : List QuestionAnswer :=
  if fch_last_stop_idx h ≠ -1 then h.drop (fch_last_stop_idx h + 1).toNat
  else h

/-- The local `pairs` (database.py:298). -/
def fch_pairs (h : List QuestionAnswer) : List QuestionAnswer :=
  (fch_trimmed h).filter (fun qa => decide (qa.answer ≠ some ""))

/-- The local `unanswered` (database.py:299). -/
def fch_unanswered (h : List QuestionAnswer) : List QuestionAnswer :=
  (fch_trimmed h).filter (fun qa => decide (qa.answer = some ""))

/-- Python `max` over a list of integers; only applied to non-empty lists
(Python raises on an empty one, and the caller guards that case). -/
def pyMax (l : List Int) : Int :=
  match l with
  | [] => 0
  | x :: xs => xs.foldl max x

/-- Embedding of `filter_chat_history` (database.py:276-307). -/
def filter_chat_history (h : List QuestionAnswer) :
    List QuestionAnswer × List QuestionAnswer :=
  if h.isEmpty then ([], [])
  else
    let pairs := fch_pairs h
    let unanswered := fch_unanswered h
    if pairs.isEmpty then ([], unanswered)
    else
      let last_answer_time := pyMax (pairs.map (fun qa => qa.created_at))
      (pairs, unanswered.filter (fun qa => decide (last_answer_time < qa.created_at)))

/-- Embedding of `set_stop_point` (database.py:310-327). -/
def set_stop_point (s : Store) (user_id : Nat) (valbool : Bool) : Store :=
  match (question_answers_desc s user_id).head? with
  | none => s
  | some last_message =>
      { s with qas := s.qas.map (fun qa =>
          if qa.id = last_message.id then { qa with stop_point := valbool } else qa) }

/-- Modelled from the spec's words, Stage B (`segment`): discard everything
up to and including the last boundary turn — that is, keep the longest
boundary-free suffix —, split the rest by the `answer != ""` test, and
when there are answered pairs keep only the unanswered turns created
strictly after the latest pair. -/
def segment_spec (h : List QuestionAnswer) :
    List QuestionAnswer × List QuestionAnswer :=
  let trimmed := (h.reverse.takeWhile (fun qa => !qa.stop_point)).reverse
  let pairs := trimmed.filter (fun qa => decide (qa.answer ≠ some ""))
  let unanswered := trimmed.filter (fun qa => decide (qa.answer = some ""))
  if pairs = [] then ([], unanswered)
  else
    (pairs,
      unanswered.filter (fun qa =>
        decide (pyMax (pairs.map (fun p => p.created_at)) < qa.created_at)))

/-- The last `n` elements of a list (all of them when `n` exceeds the
length). -/
def takeLast (n : Nat) (l : List QuestionAnswer) : List QuestionAnswer :=
  l.drop (l.length - n)

/-- Modelled from the spec's words, Stage A (`fetchWindow`) capping: when
the answered in-window turns exceed `limit_pairs`, keep only the most
recent `limit_pairs` of them (drop from the front); unanswered turns are
never capped.  The partition test is the code's `answer != ""`. -/
def fetch_window_spec (s : Store) (user_id : Nat) (time : Int)
    (limit_pairs : Int) (now : Int) : List QuestionAnswer :=
  match findUserById s user_id with
  | none => []
  | some u =>
      let answered := ghoc_full_pairs s u time now
      let kept :=
        if limit_pairs < (answered.length : Int) then
          takeLast limit_pairs.toNat answered
        else answered
      kept ++ ghoc_unanswered s u time now

lemma stopIndicesFrom_append (l1 l2 : List QuestionAnswer) (k : Nat) :
    stopIndicesFrom k (l1 ++ l2) =
      stopIndicesFrom k l1 ++ stopIndicesFrom (k + l1.length) l2 := by
  induction l1 generalizing k with
  | nil => simp [stopIndicesFrom]
  | cons qa rest ih =>
      simp only [List.cons_append, stopIndicesFrom, List.append_eq, List.length_cons]
      rw [ih (k + 1), List.append_assoc]
      have : k + 1 + rest.length = k + (rest.length + 1) := by omega
      rw [this]

lemma lt_of_mem_stopIndicesFrom {i k : Nat} {l : List QuestionAnswer}
    (h : i ∈ stopIndicesFrom k l) : i < k + l.length := by
  induction l generalizing k with
  | nil => simp [stopIndicesFrom] at h
  | cons qa rest ih =>
      simp only [stopIndicesFrom, List.mem_append] at h
      rcases h with h | h
      · by_cases hq : qa.stop_point
        · simp [hq] at h
          simp only [List.length_cons]
          omega
        · simp [hq] at h
      · have := ih h
        simp only [List.length_cons]
        omega

lemma fch_trimmed_eq (h : List QuestionAnswer) :
    fch_trimmed h = (h.reverse.takeWhile (fun qa => !qa.stop_point)).reverse := by
  induction h using List.reverseRecOn with
  | nil => rfl
  | append_singleton l a ih =>
      have hsplit : stopIndicesFrom 0 (l ++ [a]) =
          stopIndicesFrom 0 l ++ (if a.stop_point then [l.length] else []) := by
        rw [stopIndicesFrom_append]
        simp [stopIndicesFrom]
      by_cases ha : a.stop_point
      · have hidx : fch_last_stop_idx (l ++ [a]) = (l.length : Int) := by
          rw [fch_last_stop_idx, hsplit]
          simp [ha]
        have htrim : fch_trimmed (l ++ [a]) = [] := by
          rw [fch_trimmed, hidx]
          have hne : (l.length : Int) ≠ -1 := by omega
          have htn : ((l.length : Int) + 1).toNat = l.length + 1 := by omega
          simp only [hne, if_pos, htn, ite_true]
          apply List.drop_eq_nil_of_le
          simp
        rw [htrim, List.reverse_append]
        simp [List.takeWhile_cons, ha]
      · have hidx : fch_last_stop_idx (l ++ [a]) = fch_last_stop_idx l := by
          rw [fch_last_stop_idx, fch_last_stop_idx, hsplit]
          simp [ha]
        have hrev : ((l ++ [a]).reverse.takeWhile (fun qa => !qa.stop_point)).reverse =
            (l.reverse.takeWhile (fun qa => !qa.stop_point)).reverse ++ [a] := by
          rw [List.reverse_append]
          simp [List.takeWhile_cons, ha]
        rw [hrev, ← ih]
        rcases hS : (stopIndicesFrom 0 l).getLast? with _ | i
        · have hl : fch_last_stop_idx l = -1 := by rw [fch_last_stop_idx, hS]
          rw [fch_trimmed, fch_trimmed, hidx, hl]
          simp
        · have hl : fch_last_stop_idx l = (i : Int) := by rw [fch_last_stop_idx, hS]
          have hmem : i ∈ stopIndicesFrom 0 l := List.mem_of_mem_getLast? hS
          have hlt : i < l.length := by
            have := lt_of_mem_stopIndicesFrom hmem
            omega
          have hne : (i : Int) ≠ -1 := by omega
          have htn : ((i : Int) + 1).toNat = i + 1 := by omega
          rw [fch_trimmed, fch_trimmed, hidx, hl]
          simp only [hne, ite_true, htn, if_pos]
          exact List.drop_append_of_le_length (by omega)

/-- Claim C1: `filter_chat_history` implements Stage B segmentation as the
spec states it — turns at or before the last boundary are discarded, and
with non-empty answered pairs only the unanswered turns created strictly
after the latest pair survive (all of them survive when there is no pair);
the empty history yields `([], [])`. -/
theorem filter_chat_history_eq_segment_spec (h : List QuestionAnswer) :
    filter_chat_history h = segment_spec h := by
  unfold filter_chat_history segment_spec
  rw [← fch_trimmed_eq]
  by_cases hh : h.isEmpty
  · have he : h = [] := List.isEmpty_iff.mp hh
    subst he
    simp [fch_trimmed, fch_last_stop_idx, stopIndicesFrom]
  · simp only [hh, ite_false, Bool.false_eq_true]
    rw [fch_pairs, fch_unanswered]
    by_cases hp : (fch_trimmed h).filter (fun qa => decide (qa.answer ≠ some "")) = []
    · simp [hp]
    · simp [hp, List.isEmpty_iff]

/-- Turn constructor for concrete test stores. -/
def mkQA (i : Nat) (ans : Option String) (t : Int) (sp : Bool) : QuestionAnswer :=
  { id := i, question := "q", answer := ans, confluence_url := none, score := none,
    user_id := 1, created_at := t, stop_point := sp }

/-- A subscribed user with primary key 1. -/
def u1 : User := { id := 1, max_id := none, is_subscribed := true }

/-- A store with no rows at all. -/
def emptyStore : Store := { users := [], qas := [], next_user_id := 1 }

/-- A turn whose `answer` is absent (`None`), created at time 10. -/
def qaAbsent : QuestionAnswer := mkQA 1 none 10 false

/-- Store holding only `qaAbsent` for user 1. -/
def storeAbsent : Store := { users := [u1], qas := [qaAbsent], next_user_id := 2 }

/-- Claim C2, counterexample: a turn whose `answer` is absent (`None`) is
classified as an answered pair by both `filter_chat_history` and
`get_history_of_chat` (the code tests `answer != ""`, which `None`
passes), contradicting the claim that such a turn is unanswered and never
among the pairs. -/
theorem absent_answer_classified_as_pair :
    qaAbsent.answer = none ∧
    (filter_chat_history [qaAbsent]).1 = [qaAbsent] ∧
    (filter_chat_history [qaAbsent]).2 = [] ∧
    get_history_of_chat storeAbsent 1 30 5 20 = [qaAbsent] ∧
    qaAbsent ∈ ghoc_full_pairs storeAbsent u1 30 20 := by
  refine ⟨rfl, ?_, ?_, ?_, ?_⟩ <;> decide

/-- Claim C2, amended: both functions classify a turn as unanswered
exactly when its `answer` equals the empty string, and as an answered
pair exactly when it differs from the empty string — so a turn with an
absent (`None`) answer is returned among the answered pairs. -/
theorem classification_by_empty_string (h : List QuestionAnswer)
    (qa : QuestionAnswer) :
    (qa ∈ fch_pairs h ↔ qa ∈ fch_trimmed h ∧ qa.answer ≠ some "") ∧
    (qa ∈ fch_unanswered h ↔ qa ∈ fch_trimmed h ∧ qa.answer = some "") ∧
    (qa ∈ fch_trimmed h → qa.answer = none → qa ∈ (filter_chat_history h).1) ∧
    (∀ (s : Store) (u : User) (time now : Int),
      (qa ∈ ghoc_full_pairs s u time now ↔
        qa ∈ ghoc_recent s u time now ∧ qa.answer ≠ some "") ∧
      (qa ∈ ghoc_unanswered s u time now ↔
        qa ∈ ghoc_recent s u time now ∧ qa.answer = some "")) := by
  refine ⟨?_, ?_, ?_, ?_⟩
  · simp [fch_pairs, List.mem_filter]
  · simp [fch_unanswered, List.mem_filter]
  · intro hmem hnone
    have hp : qa ∈ fch_pairs h := by
      rw [fch_pairs, List.mem_filter]
      exact ⟨hmem, by simp [hnone]⟩
    have hhe : h.isEmpty = false := by
      rcases h with _ | _
      · exact absurd hmem (by simp [fch_trimmed, fch_last_stop_idx, stopIndicesFrom])
      · rfl
    have hpe : (fch_pairs h).isEmpty = false := by
      rcases hq : fch_pairs h with _ | _
      · rw [hq] at hp
        exact absurd hp (by simp)
      · rfl
    rw [filter_chat_history, hhe]
    simp only [Bool.false_eq_true, ite_false, hpe]
    exact hp
  · intro s u time now
    constructor
    · simp [ghoc_full_pairs, List.mem_filter]
    · simp [ghoc_unanswered, List.mem_filter]

/-- Witness for the amended C2 on a concrete turn with an absent answer. -/
theorem classification_by_empty_string_witness :
    qaAbsent ∈ (filter_chat_history [qaAbsent]).1 :=
  (classification_by_empty_string [qaAbsent] qaAbsent).2.2.1 (by decide) rfl

/-- Store with one answered in-window turn for user 1. -/
def storeCap : Store :=
  { users := [u1], qas := [mkQA 1 (some "a") 10 false], next_user_id := 2 }

/-- Claim C3, counterexample: with `limit_pairs = 0` and one answered
in-window turn, the claim demands that zero answered turns be kept, but
`full_pairs[-0:]` is the whole list, so the code keeps the turn. -/
theorem pair_cap_zero_keeps_all :
    get_history_of_chat storeCap 1 30 0 20 ≠ fetch_window_spec storeCap 1 30 0 20 ∧
    get_history_of_chat storeCap 1 30 0 20 = [mkQA 1 (some "a") 10 false] ∧
    fetch_window_spec storeCap 1 30 0 20 = [] := by
  refine ⟨?_, ?_, ?_⟩ <;> decide

/-- Claim C3, amended (restricted to positive `limit_pairs`):
`get_history_of_chat` returns the answered in-window turns — capped to the
most recent `limit_pairs` of them when they exceed `limit_pairs`, dropped
from the front — concatenated with all unanswered in-window turns, and
both sub-lists are in ascending `created_at` order. -/
theorem get_history_matches_fetch_window_spec (s : Store) (user_id : Nat)
    (time limit_pairs now : Int) (hlp : 1 ≤ limit_pairs) :
    get_history_of_chat s user_id time limit_pairs now =
      fetch_window_spec s user_id time limit_pairs now ∧
    ∀ u, findUserById s user_id = some u →
      List.Pairwise qaLE
        (if limit_pairs < ((ghoc_full_pairs s u time now).length : Int) then
          takeLast limit_pairs.toNat (ghoc_full_pairs s u time now)
        else ghoc_full_pairs s u time now) ∧
      List.Pairwise qaLE (ghoc_unanswered s u time now) := by
  constructor
  · rw [get_history_of_chat, fetch_window_spec]
    cases hf : findUserById s user_id with
    | none => rfl
    | some u =>
        simp only []
        congr 1
        by_cases hc : limit_pairs < ((ghoc_full_pairs s u time now).length : Int)
        · rw [if_pos hc, if_pos hc, pySliceFrom, takeLast]
          have hneg : ¬ (0 ≤ -limit_pairs) := by omega
          rw [if_neg hneg]
          congr 1
          omega
        · rw [if_neg hc, if_neg hc]
  · intro u _
    have hs : List.Pairwise qaLE (ghoc_recent s u time now) :=
      List.sorted_insertionSort qaLE _
    refine ⟨?_, List.Pairwise.filter _ hs⟩
    by_cases hc : limit_pairs < ((ghoc_full_pairs s u time now).length : Int)
    · rw [if_pos hc, takeLast]
      exact List.Pairwise.drop (List.Pairwise.filter _ hs)
    · rw [if_neg hc]
      exact List.Pairwise.filter _ hs

/-- Witness for the amended C3 at `limit_pairs = 1` on a concrete store. -/
theorem get_history_matches_fetch_window_spec_witness :
    get_history_of_chat storeCap 1 30 1 20 = fetch_window_spec storeCap 1 30 1 20 ∧
    List.Pairwise qaLE (ghoc_unanswered storeCap u1 30 20) :=
  ⟨(get_history_matches_fetch_window_spec storeCap 1 30 1 20 (by decide)).1,
   ((get_history_matches_fetch_window_spec storeCap 1 30 1 20 (by decide)).2
      u1 (by decide)).2⟩

/-- Store with two answered in-window turns for user 1. -/
def storeNeg : Store :=
  { users := [u1],
    qas := [mkQA 1 (some "a") 10 false, mkQA 2 (some "b") 20 false],
    next_user_id := 2 }

/-- Claim C9: `get_history_of_chat` performs no validation of a negative
`limit_pairs` — at `limit_pairs = -1` it silently returns
`full_pairs[1:] ++ unanswered` (the first answered turn is dropped)
instead of failing fast with an InvalidArgument condition. -/
theorem get_history_negative_limit_returns_result :
    get_history_of_chat storeNeg 1 30 (-1) 30 = [mkQA 2 (some "b") 20 false] := by
  decide

/-- Claim C5: when the store fails to assign an id (the ORM object's `id`
is still `None` after flush/refresh), `add_question_answer` does not fail
loudly — lines 206-208 return the sentinel `0`, conflating "no id" with
"id zero". -/
theorem add_question_answer_returns_zero_sentinel (s : Store) (q a : String)
    (c : Option String) (uid : Nat) (now : Int) :
    (add_question_answer s q a c uid now none).1 = 0 :=
  rfl

/-- Claim C7: `add_user` called with `max_id = None` does not insert a
user — the local variable `user` is never assigned, and line 107 raises
`UnboundLocalError`. -/
theorem add_user_none_unbound_local (s : Store) :
    add_user s none = Except.error PyFault.unboundLocalError :=
  rfl

/-- Claim C6: for an external id `x` not yet present, `add_user` returns
`(True, id)` with a fresh id on the first call and `(False, id)` with the
same id on the second, leaving the store unchanged the second time. -/
theorem add_user_idempotent (s : Store) (x : Int)
    (h : findUserByMaxId s x = none) :
    ∃ s1 : Store,
      add_user s (some x) = Except.ok (true, s.next_user_id, s1) ∧
      add_user s1 (some x) = Except.ok (false, s.next_user_id, s1) := by
  refine ⟨{ s with
      users := s.users ++ [{ id := s.next_user_id, max_id := some x, is_subscribed := true }],
      next_user_id := s.next_user_id + 1 }, ?_, ?_⟩
  · rw [add_user]
    simp [h]
  · have hfind : findUserByMaxId
        { s with
          users := s.users ++ [{ id := s.next_user_id, max_id := some x, is_subscribed := true }],
          next_user_id := s.next_user_id + 1 } x =
        some { id := s.next_user_id, max_id := some x, is_subscribed := true } := by
      rw [findUserByMaxId] at h ⊢
      rw [List.find?_append, h]
      simp
    rw [add_user]
    simp [hfind]

/-- Witness for C6 starting from the empty store with external id 7. -/
theorem add_user_idempotent_witness :
    ∃ s1 : Store,
      add_user emptyStore (some 7) = Except.ok (true, emptyStore.next_user_id, s1) ∧
      add_user s1 (some 7) = Except.ok (false, emptyStore.next_user_id, s1) :=
  add_user_idempotent emptyStore 7 (by decide)

lemma find?_map_update {l : List User} {uid : Nat} {u : User} (u' : User)
    (hfind : l.find? (fun v => decide (v.id = uid)) = some u)
    (hid : u'.id = u.id) :
    (l.map (fun v => if v.id = u.id then u' else v)).find?
      (fun v => decide (v.id = uid)) = some u' := by
  have huid : u.id = uid := by
    have := List.find?_some hfind
    simpa using this
  induction l with
  | nil => simp at hfind
  | cons a rest ih =>
      rw [List.find?_cons] at hfind
      by_cases ha : a.id = uid
      · simp [ha] at hfind
        subst hfind
        simp only [List.map_cons, if_pos rfl]
        rw [List.find?_cons]
        simp [hid, ha]
      · simp [ha] at hfind
        have hne : a.id ≠ u.id := by
          rw [huid]
          exact ha
        simp only [List.map_cons, if_neg hne]
        rw [List.find?_cons]
        simp only [ha, decide_eq_false ha]
        exact ih hfind

/-- Store holding the subscribed user 1 and nothing else. -/
def storeSub : Store := { users := [u1], qas := [], next_user_id := 2 }

/-- Claim C8, counterexample: `subscribe_user` returns the plain boolean
`False` when the user is not found — the very same value it returns when
it toggles an existing subscribed user off — so the not-found outcome is
not distinguishable from a subscription state. -/
theorem subscribe_notfound_indistinguishable :
    findUserById emptyStore 1 = none ∧
    (subscribe_user emptyStore 1).1 = false ∧
    findUserById storeSub 1 = some u1 ∧
    u1.is_subscribed = true ∧
    (subscribe_user storeSub 1).1 = false := by
  refine ⟨rfl, rfl, rfl, rfl, rfl⟩

/-- Claim C8, amended: for an unknown `user_id`, `subscribe_user` returns
`false` (a value that coincides with the unsubscribed state, not a
distinguishable none) and leaves the store unchanged; for an existing
user it flips `is_subscribed`, persists the flip, and returns the new
value. -/
theorem subscribe_user_behavior (s : Store) (user_id : Nat) :
    (findUserById s user_id = none → subscribe_user s user_id = (false, s)) ∧
    (∀ u, findUserById s user_id = some u →
      (subscribe_user s user_id).1 = !u.is_subscribed ∧
      findUserById (subscribe_user s user_id).2 user_id =
        some { u with is_subscribed := !u.is_subscribed }) := by
  constructor
  · intro h
    rw [subscribe_user, h]
  · intro u hu
    rw [subscribe_user, hu]
    refine ⟨rfl, ?_⟩
    rw [findUserById] at hu ⊢
    exact find?_map_update _ hu rfl

/-- Witness for the amended C8: the not-found branch on the empty store
and the toggle branch on the store holding the subscribed user 1. -/
theorem subscribe_user_behavior_witness :
    subscribe_user emptyStore 1 = (false, emptyStore) ∧
    (subscribe_user storeSub 1).1 = false :=
  ⟨(subscribe_user_behavior emptyStore 1).1 rfl,
   ((subscribe_user_behavior storeSub 1).2 u1 rfl).1⟩

/-- Six answered turns for user 1 at times 935..995 (the spec's spam
example with `now = 1000`). -/
def storeSpam : Store :=
  { users := [u1],
    qas := [mkQA 1 (some "a") 935 false, mkQA 2 (some "a") 950 false,
            mkQA 3 (some "a") 960 false, mkQA 4 (some "a") 970 false,
            mkQA 5 (some "a") 980 false, mkQA 6 (some "a") 995 false],
    next_user_id := 2 }

/-- The same user with only five turns. -/
def storeFive : Store := { storeSpam with qas := storeSpam.qas.drop 1 }

/-- Claim C4: for an existing user, `check_spam` is true exactly when the
user has strictly more than five total turns and the fifth-most-recent
turn (the fifth entry of the descending-by-`created_at` ordering) was
created within the last sixty seconds; with exactly five turns it is
false. -/
theorem check_spam_characterization (s : Store) (user_id : Nat) (now : Int)
    (u : User) (hu : findUserById s user_id = some u) :
    (check_spam s user_id now = true ↔
      5 < (userTurns s u.id).length ∧
      ∃ fifth, ((question_answers_desc s u.id).drop 4).head? = some fifth ∧
        now - 60 < fifth.created_at) ∧
    ((userTurns s u.id).length = 5 → check_spam s user_id now = false) := by
  have hlen : (question_answers_desc s u.id).length = (userTurns s u.id).length := by
    rw [question_answers_desc, sortByCreatedAtAsc]
    simp
  constructor
  · rw [check_spam, hu]
    simp only []
    by_cases h5 : 5 < (question_answers_desc s u.id).length
    · rw [if_pos h5]
      rcases hh : ((question_answers_desc s u.id).drop 4).head? with _ | fifth
      · exfalso
        have hnil : (question_answers_desc s u.id).drop 4 = [] :=
          List.head?_eq_none_iff.mp hh
        have := congrArg List.length hnil
        simp only [List.length_drop, List.length_nil] at this
        omega
      · simp only [decide_eq_true_eq]
        constructor
        · intro hlt
          exact ⟨hlen ▸ h5, fifth, rfl, hlt⟩
        · rintro ⟨-, f, hf, hlt⟩
          have : f = fifth := (Option.some_injective _ hf).symm
          rw [← this]
          exact hlt
    · rw [if_neg h5]
      simp only [Bool.false_eq_true, false_iff, not_and]
      intro h5'
      rw [← hlen] at h5'
      exact absurd h5' h5
  · intro hfive
    rw [check_spam, hu]
    simp only []
    rw [if_neg]
    omega

/-- Witness for C4: the spec's six-turn burst is flagged as spam at
`now = 1000`, and the same user with only five turns is not. -/
theorem check_spam_characterization_witness :
    check_spam storeSpam 1 1000 = true ∧ check_spam storeFive 1 1000 = false :=
  ⟨((check_spam_characterization storeSpam 1 1000 u1 rfl).1).mpr
      ⟨by decide, mkQA 2 (some "a") 950 false, by decide, by decide⟩,
   (check_spam_characterization storeFive 1 1000 u1 rfl).2 (by decide)⟩

/-- Claim C10: `check_spam` for a `user_id` with no matching user returns
`false` without a fault. -/
theorem check_spam_unknown_user_false (s : Store) (user_id : Nat) (now : Int)
    (h : findUserById s user_id = none) :
    check_spam s user_id now = false := by
  rw [check_spam, h]

/-- Witness for C10 on the empty store. -/
theorem check_spam_unknown_user_false_witness :
    check_spam emptyStore 1 0 = false :=
  check_spam_unknown_user_false emptyStore 1 0 rfl
